import Mathlib

/-!
Shallow embedding of the `meilisearch-dsl` query builder.

Source files embedded here:
- `src/meilisearchdsl/query.py` — the `Q` condition algebra
  (`__or__`, `__and__`, `__invert__`, `_clean_value`, `to_query_string`,
  `to_query_list`);
- `src/meilisearchdsl/index_query.py` — the `IndexQuery` options builder
  (`__init__`, `get_dict`, `set_attr`).

Python machine types are modelled as: `str` → `String`, `int` → `Int`,
`bool` → `Bool`, `list` → `List`; a raised exception is an `Except.error`.
-/

/-- A Python scalar value as it may occur inside a list given to an
`IN`/`NOT IN` condition (the spec's "sequence of scalars"). -/
inductive Scalar where
  | s (v : String)
  | i (v : Int)
  | b (v : Bool)
deriving DecidableEq, Repr

/-- A Python value attached to a condition key: a scalar or a list of
scalars. -/
inductive QVal where
  | str (v : String)
  | int (v : Int)
  | bool (v : Bool)
  | list (v : List Scalar)
deriving DecidableEq, Repr

/-- An expression node of the `Q` class.  The Python class stores
`conditions` (a kwargs dict), `operator` (`None`, `"AND"` or `"OR"`),
`negate` and `children`; the states reachable through `__init__`,
`__or__`, `__and__` and `__invert__` are exactly: leaves
(`operator is None`, no children) and combinators (`operator` set,
two children, empty conditions). -/
inductive Q where
  | leaf (conditions : List (String × QVal)) (negate : Bool)
  | comb (operator : String) (left right : Q) (negate : Bool)
deriving DecidableEq, Repr

/-- `Q(**kwargs)`: `__init__` gives `operator = None`, `negate = False`,
`children = []`. -/
def Q.make (conditions : List (String × QVal)) : Q :=
  Q.leaf conditions false

/-- `__or__`: a fresh node with operator `"OR"` and children
`[self, other]`. -/
def Q.or_ (self other : Q) : Q :=
  Q.comb "OR" self other false

/-- `__and__`: a fresh node with operator `"AND"` and children
`[self, other]`. -/
def Q.and_ (self other : Q) : Q :=
  Q.comb "AND" self other false

/-- `__invert__`: a fresh node carrying the same conditions, operator and
children, with the `negate` flag flipped. -/
def Q.invert : Q → Q
  | Q.leaf conditions negate => Q.leaf conditions (!negate)
  | Q.comb operator left right negate => Q.comb operator left right (!negate)

/-- The value strings of the `Q.OPERATIONS` enum, in declaration order
(`OPERATIONS.get_values()`). -/
def opValues : List String :=
  ["eq", "neq", "gt", "gte", "lt", "lte", "in", "nin", "exists", "not exists"]

/-- The `Q.op_map` dict: operation value → rendered operator token. -/
def op_map : List (String × String) :=
  [("eq", "="), ("neq", "!="), ("gt", ">"), ("gte", ">="), ("lt", "<"),
   ("lte", "<="), ("in", "IN"), ("nin", "NOT IN"), ("exists", "EXISTS"),
   ("not exists", "NOT EXISTS")]

/-- The `Q.negate_map` dict: operator token → negated operator token. -/
def negate_map : List (String × String) :=
  [("=", "!="), ("!=", "="), (">", "<="), (">=", "<"), ("<", ">="),
   ("<=", ">"), ("IN", "NOT IN"), ("NOT IN", "IN"), ("EXISTS", "NOT EXISTS"),
   ("NOT EXISTS", "EXISTS")]

/-- Dict lookup (`d[k]`); the default is never reached at the call sites,
which are guarded by the membership assertion of the source. -/
def lookupD (m : List (String × String)) (k : String) : String :=
  (m.lookup k).getD ""

/-- `" " in s` for a Python string. -/
def containsSpace (s : String) : Bool :=
  s.toList.contains ' '

/-- Python `key.split("__")`, specialised to the separator `"__"` used by
the source: greedy left-to-right, non-overlapping. -/
def splitUU : List Char → List (List Char)
  | '_' :: '_' :: rest => [] :: splitUU rest
  | c :: rest =>
    match splitUU rest with
    | [] => [[c]]
    | g :: gs => (c :: g) :: gs
  | [] => [[]]

/-- `*fields, operation = key.split("__") if "__" in key
else (key, OPERATIONS.EQUALS)`. -/
def parseKey (key : String) : List String × String :=
  let parts := (splitUU key.toList).map List.asString
  if 2 ≤ parts.length then (parts.dropLast, parts.getLastD "")
  else ([key], "eq")

/-- The list `expression_ops` built inside `_clean_value`:
`OPERATIONS.get_values() + list(negate_map.values())`. -/
def expression_ops : List String :=
  opValues ++ negate_map.map Prod.snd

/-- `Q._clean_value`: strings with a space are double-quoted, booleans are
lowercased, other scalars use `str()`; a result that collides with an
operator token is double-quoted. -/
def clean_value (val : Scalar) : String :=
  let retval :=
    match val with
    | Scalar.s v => if containsSpace v then "\"" ++ v ++ "\"" else v
    | Scalar.b v => if v then "true" else "false"
    | Scalar.i v => toString v
  if expression_ops.contains retval then "\"" ++ retval ++ "\"" else retval

/-- The errors a `Q` rendering can raise: the two `assert` statements of
the leaf-condition loop (the spec's `InvalidOperator` and
`InvalidValueType`) and the nesting exception of `to_query_list` (the
spec's `DepthExceeded`). -/
inductive QError where
  | invalidOperation (op : String)
  | invalidValueType
  | depthExceeded
deriving DecidableEq, Repr

/-- Python `repr` of a scalar, for the (membership-free) rendering of a
list value through `str(list)`; covers strings free of quotes, backslashes
and control characters, which is the only shape the embedding feeds it. -/
def pyRepr : Scalar → String
  | Scalar.s v => "\x27" ++ v ++ "\x27"
  | Scalar.i v => toString v
  | Scalar.b v => if v then "True" else "False"

/-- Python `str()` of a list value. -/
def pyStrList (l : List Scalar) : String :=
  "[" ++ String.intercalate ", " (l.map pyRepr) ++ "]"

/-- The f-string formatting of a non-membership condition value: a string
containing a space is double-quoted first, every other value formats with
`str()`. -/
def scalarRender : QVal → String
  | QVal.str s => if containsSpace s then "\"" ++ s ++ "\"" else s
  | QVal.int n => toString n
  | QVal.bool b => if b then "True" else "False"
  | QVal.list l => pyStrList l

/-- The value-preparation step of one condition: for `IN`/`NOT IN` the
value must be a list (`assert isinstance(value, list)`) and each element
goes through `_clean_value` before a `","` join inside `[...]`; every
other operation formats the value directly. -/
def formatValue (operation : String) (value : QVal) : Except QError String :=
  if operation = "in" || operation = "nin" then
    match value with
    | QVal.list l =>
      Except.ok ("[" ++ String.intercalate "," (l.map clean_value) ++ "]")
    | _ => Except.error QError.invalidValueType
  else
    Except.ok (scalarRender value)

/-- Rendering of one `key = value` condition of a leaf, as done by the
loop body of `to_query_string`/`to_query_list`. -/
def renderCondition (neg : Bool) (key : String) (value : QVal) :
    Except QError String :=
  let fo := parseKey key
  let field := String.intercalate "." fo.1
  let operation := fo.2
  if opValues.contains operation then
    match formatValue operation value with
    | Except.error e => Except.error e
    | Except.ok valueStr =>
      let tok := lookupD op_map operation
      let finalTok := if neg then lookupD negate_map tok else tok
      if finalTok = "EXISTS" ∨ finalTok = "NOT EXISTS" then
        Except.ok (field ++ " " ++ finalTok)
      else
        Except.ok (field ++ " " ++ finalTok ++ " " ++ valueStr)
  else Except.error (QError.invalidOperation operation)

/-- The condition loop: conditions render left to right and the first
raised error aborts the loop. -/
def renderConditions (neg : Bool) :
    List (String × QVal) → Except QError (List String)
  | [] => Except.ok []
  | (k, v) :: rest =>
    match renderCondition neg k v with
    | Except.error e => Except.error e
    | Except.ok c =>
      match renderConditions neg rest with
      | Except.error e => Except.error e
      | Except.ok cs => Except.ok (c :: cs)

/-- The leaf branch shared by `to_query_string` and `to_query_list`
(the source duplicates this block verbatim in both methods):
render every condition and join with `" AND "`. -/
def renderLeafConditions (neg : Bool) (conditions : List (String × QVal)) :
    Except QError String :=
  match renderConditions neg conditions with
  | Except.error e => Except.error e
  | Except.ok cs => Except.ok (String.intercalate " AND " cs)

/-- `Q.to_query_string`: combinators render as
`"(<left>) <OP> (<right>)"`, leaves render their conditions joined with
`" AND "`.  The combinator branch reads only `operator` and `children` —
it never consults the node's own `negate` flag. -/
def Q.to_query_string : Q → Except QError String
  | Q.leaf conditions negate => renderLeafConditions negate conditions
  | Q.comb operator left right _ =>
    match left.to_query_string with
    | Except.error e => Except.error e
    | Except.ok ls =>
      match right.to_query_string with
      | Except.error e => Except.error e
      | Except.ok rs =>
        Except.ok ("(" ++ ls ++ ") " ++ operator ++ " (" ++ rs ++ ")")

/-- The nested-list rendering of `to_query_list`: a combinator becomes a
two-element list, a leaf becomes its joined condition string. -/
inductive QueryList where
  | str (s : String)
  | pair (left right : QueryList)
deriving DecidableEq, Repr

/-- `Q.to_query_list(lvl)`: raises the nesting exception as soon as a
call is made with `lvl > 2`; a combinator recurses on both children with
`lvl + 1` and returns `[left, right]` (the operator is dropped), a leaf
renders exactly like the leaf branch of `to_query_string`. -/
def Q.to_query_list (q : Q) (lvl : Nat) : Except QError QueryList :=
  if lvl > 2 then Except.error QError.depthExceeded
  else
    match q with
    | Q.leaf conditions negate =>
      match renderLeafConditions negate conditions with
      | Except.error e => Except.error e
      | Except.ok s => Except.ok (QueryList.str s)
    | Q.comb _ left right _ =>
      match left.to_query_list (lvl + 1) with
      | Except.error e => Except.error e
      | Except.ok ls =>
        match right.to_query_list (lvl + 1) with
        | Except.error e => Except.error e
        | Except.ok rs => Except.ok (QueryList.pair ls rs)

/-- The number of nested combinator levels of a tree: a bare leaf has
depth `0`, a combinator has one level more than its deeper child.  The
root call of `to_query_list` receives `lvl = 0`. -/
def Q.combDepth : Q → Nat
  | Q.leaf _ _ => 0
  | Q.comb _ left right _ => 1 + max left.combDepth right.combDepth

/-- Whether an `Except` result is a success. -/
def exceptIsOk : Except QError String → Bool
  | Except.ok _ => true
  | Except.error _ => false

/-- Every leaf of the tree renders without error. -/
def Q.leavesOk : Q → Bool
  | Q.leaf conditions negate => exceptIsOk (renderLeafConditions negate conditions)
  | Q.comb _ left right _ => left.leavesOk && right.leavesOk

/-- The operator suffix of a condition key is a recognized operation. -/
def condOpValid (c : String × QVal) : Bool :=
  opValues.contains (parseKey c.1).2

/-- The condition key parses to a membership operation (`IN`/`NOT IN`). -/
def condIsMembership (c : String × QVal) : Bool :=
  (parseKey c.1).2 = "in" || (parseKey c.1).2 = "nin"

/-- The condition value is a Python list. -/
def isListVal : QVal → Bool
  | QVal.list _ => true
  | _ => false

/-!  The `IndexQuery` options builder of `index_query.py`. -/

/-- A Python type expression as it appears in the `IndexQuery._attributes`
dict: the class `Q` and the `Optional[...]` annotations. -/
inductive PyType where
  | qCls
  | strCls
  | intCls
  | boolCls
  | listStr
  | optional (t : PyType)
deriving DecidableEq, Repr

/-- A value stored in an option slot of the builder (the setter accepts
`Union[str, int, List[str], Q]`; `show_matches_position` stores a bool). -/
inductive AttrValue where
  | s (v : String)
  | i (v : Int)
  | ls (v : List String)
  | b (v : Bool)
  | q (v : Q)
deriving DecidableEq, Repr

/-- The `IndexQuery._attributes` class dict, in declaration order:
option name ↦ its type annotation. -/
def attributesTable : List (String × PyType) :=
  [("filter", PyType.optional PyType.qCls),
   ("limit", PyType.optional PyType.intCls),
   ("offset", PyType.optional PyType.intCls),
   ("hits_per_page", PyType.optional PyType.intCls),
   ("page", PyType.optional PyType.intCls),
   ("facets", PyType.optional PyType.listStr),
   ("attributes_to_retrieve", PyType.optional PyType.listStr),
   ("attributes_to_crop", PyType.optional PyType.listStr),
   ("crop_length", PyType.optional PyType.intCls),
   ("crop_marker", PyType.optional PyType.strCls),
   ("attributes_to_highlight", PyType.optional PyType.listStr),
   ("highlight_pre_tag", PyType.optional PyType.strCls),
   ("highlight_post_tag", PyType.optional PyType.strCls),
   ("show_matches_position", PyType.optional PyType.boolCls),
   ("sort", PyType.optional PyType.listStr),
   ("matching_strategy", PyType.optional PyType.strCls)]

/-- The recognized option names (the keys of `_attributes`). -/
def attrNames : List String :=
  attributesTable.map Prod.fst

/-- The state of an `IndexQuery` object: the index identifier, the query
string, and the dynamically `setattr`-initialized option slots (`None`
modelled as `Option.none`). -/
structure IndexQuery where
  index_uid : String
  search_query : String
  attrs : List (String × Option AttrValue)
deriving DecidableEq, Repr

/-- `IndexQuery.__init__`: stores the identifier and query string and
initializes every attribute of `_attributes` to `None`. -/
def IndexQuery.make (index_uid search_query : String) : IndexQuery :=
  ⟨index_uid, search_query, attributesTable.map (fun p => (p.1, none))⟩

/-- `getattr(self, attr)` on an option slot. -/
def IndexQuery.getattr (iq : IndexQuery) (attr : String) : Option AttrValue :=
  match iq.attrs.lookup attr with
  | some v => v
  | none => none

/-- Replace the value stored under an attribute name, keeping slot order. -/
def updateSlot (attr : String) (v : AttrValue) :
    List (String × Option AttrValue) → List (String × Option AttrValue)
  | [] => []
  | (k, w) :: rest =>
    if k = attr then (k, some v) :: updateSlot attr v rest
    else (k, w) :: updateSlot attr v rest

/-- `setattr(self, attr, value)` on an option slot. -/
def IndexQuery.setattrRaw (iq : IndexQuery) (attr : String) (v : AttrValue) :
    IndexQuery :=
  { iq with attrs := updateSlot attr v iq.attrs }

/-- `IndexQuery.set_attr`: raises `AttributeError` when the name is not a
key of `_attributes` — before any mutation, so in that case the builder
state it was called on is left exactly as it was — and otherwise stores
the value and returns the (updated) builder itself. -/
def IndexQuery.set_attr (iq : IndexQuery) (attr : String) (v : AttrValue) :
    Except String IndexQuery :=
  if attrNames.contains attr then Except.ok (iq.setattrRaw attr v)
  else Except.error ("Attribute " ++ attr ++ " does not exist.")

/-- The errors a `value.to_query_string()` call on a stored option value
can raise: a `Q` value surfaces the rendering errors, any other value has
no such method (`AttributeError`). -/
inductive PyErr where
  | attributeError
  | qError (e : QError)
deriving DecidableEq, Repr

/-- `value.to_query_string()` on a stored option value. -/
def AttrValue.callToQueryString : AttrValue → Except PyErr String
  | AttrValue.q qv =>
    match qv.to_query_string with
    | Except.ok out => Except.ok out
    | Except.error e => Except.error (PyErr.qError e)
  | _ => Except.error PyErr.attributeError

instance {α β : Type} [DecidableEq α] [DecidableEq β] : DecidableEq (Except α β) :=
  fun a b =>
    match a, b with
    | Except.ok x, Except.ok y =>
      if h : x = y then isTrue (congrArg Except.ok h)
      else isFalse (fun he => h (Except.ok.inj he))
    | Except.error x, Except.error y =>
      if h : x = y then isTrue (congrArg Except.error h)
      else isFalse (fun he => h (Except.error.inj he))
    | Except.ok _, Except.error _ => isFalse (fun he => Except.noConfusion he)
    | Except.error _, Except.ok _ => isFalse (fun he => Except.noConfusion he)

/-- A value of the mapping returned by `get_dict`: either a stored option
value passed through unchanged, or the result of the
`value.to_query_string()` branch. -/
inductive DictValue where
  | raw (v : AttrValue)
  | rendered (r : Except PyErr String)
deriving DecidableEq, Repr

/-- `IndexQuery.get_dict`: starts from `{"indexUid": ..., "q": ...}`, then
for each `(attr, attr_type)` of `_attributes` in order, skips a `None`
value and otherwise stores under the key `attr` either the value itself
(when `attr_type != Q`) or its rendering (when `attr_type == Q`).  Every
`attr_type` in the table is an `Optional[...]` annotation, never the bare
class `Q`, so the comparison `attr_type != Q` is true for every entry and
the rendering branch is unreachable. -/
def IndexQuery.get_dict (iq : IndexQuery) : List (String × DictValue) :=
  [("indexUid", DictValue.raw (AttrValue.s iq.index_uid)),
   ("q", DictValue.raw (AttrValue.s iq.search_query))] ++
  attributesTable.filterMap (fun p =>
    match iq.getattr p.1 with
    | none => none
    | some v =>
      some (p.1, if p.2 ≠ PyType.qCls then DictValue.raw v
                 else DictValue.rendered v.callToQueryString))

/-!  Concrete inputs used by the theorems below. -/

/-- The filter `Q(age__gt=19)` of `test.py::test_multi_search`. -/
def ageGtQ : Q := Q.make [("age__gt", QVal.int 19)]

/-- The builder state of `test.py::test_multi_search`: filter,
`attributes_to_retrieve`, `attributes_to_highlight`, `facets`, `limit`,
`show_matches_position` and `sort` set on
`IndexQuery("test_index", "John")`. -/
def iqTest : IndexQuery :=
  (((((((IndexQuery.make "test_index" "John").setattrRaw "filter"
    (AttrValue.q ageGtQ)).setattrRaw
    "attributes_to_retrieve" (AttrValue.ls ["name", "age"])).setattrRaw
    "attributes_to_highlight" (AttrValue.ls ["name"])).setattrRaw
    "facets" (AttrValue.ls ["category"])).setattrRaw
    "limit" (AttrValue.i 2)).setattrRaw
    "show_matches_position" (AttrValue.b true)).setattrRaw
    "sort" (AttrValue.ls ["age:asc"])

/-- The expression of the chaining example:
`(Q(name="John") | Q(name="John Simmons") | ~Q(age__gt=30)) &
 (Q(number__gte=10) & Q(number__lte=20)) | Q(category__in=["a","b c",1])`,
with `&` binding tighter than `|` and both left-associated, exactly as
Python parses it. -/
def qChained : Q :=
  ((((Q.make [("name", QVal.str "John")]).or_
     (Q.make [("name", QVal.str "John Simmons")])).or_
     (Q.make [("age__gt", QVal.int 30)]).invert).and_
     ((Q.make [("number__gte", QVal.int 10)]).and_
      (Q.make [("number__lte", QVal.int 20)]))).or_
   (Q.make [("category__in", QVal.list [Scalar.s "a", Scalar.s "b c", Scalar.i 1])])

/-!  Theorems. -/

/-- Claim C3: the chained example expression renders to exactly the
string of the spec example, fully parenthesized and left-child-first,
with the negated `gt` condition rendered through `<=`, the
space-containing string double-quoted, and the `IN` list elements
individually formatted and comma-joined inside brackets. -/
theorem chained_example_renders_exactly :
    qChained.to_query_string =
      Except.ok ("((((name = John) OR (name = \"John Simmons\")) OR (age <= 30))" ++
        " AND ((number >= 10) AND (number <= 20))) OR (category IN [a,\"b c\",1])") := by
  decide

/-- Claim C7: `Q(category__nin=["a","b","c d"])` renders to exactly
`category NOT IN [a,b,"c d"]`; list elements are independently formatted
by `_clean_value`, which double-quotes a space-containing string and a
string colliding with a reserved operator token such as `"IN"`. -/
theorem nin_list_rendering_example :
    (Q.make [("category__nin",
        QVal.list [Scalar.s "a", Scalar.s "b", Scalar.s "c d"])]).to_query_string =
      Except.ok "category NOT IN [a,b,\"c d\"]" ∧
    clean_value (Scalar.s "IN") = "\"IN\"" ∧
    clean_value (Scalar.s "c d") = "\"c d\"" := by
  refine ⟨by decide, by decide, by decide⟩

/-- Claim C4, counterexample: a boolean appearing as the scalar value of
a non-membership condition does NOT render lowercase — `Q(flag=True)`
renders to `flag = True`, because the scalar path formats the value with
`str()` and never calls `_clean_value`. -/
theorem scalar_bool_renders_capitalized :
    (Q.make [("flag", QVal.bool true)]).to_query_string = Except.ok "flag = True" ∧
    (Except.ok "flag = True" : Except QError String) ≠ Except.ok "flag = true" := by
  refine ⟨by decide, by decide⟩

/-- Claim C4, amended: booleans render as lowercase `true`/`false` only
when they occur as elements of an `IN`/`NOT IN` list (where
`_clean_value` is applied); a boolean that is the scalar value of a
non-membership condition renders with Python's default capitalization
`True`/`False`. -/
theorem bool_lowercase_only_in_membership_lists (b : Bool) :
    clean_value (Scalar.b b) = (if b then "true" else "false") ∧
    (Q.make [("category__in", QVal.list [Scalar.b b])]).to_query_string =
      Except.ok ("category IN [" ++ (if b then "true" else "false") ++ "]") ∧
    (Q.make [("category__nin", QVal.list [Scalar.b b])]).to_query_string =
      Except.ok ("category NOT IN [" ++ (if b then "true" else "false") ++ "]") ∧
    (Q.make [("flag", QVal.bool b)]).to_query_string =
      Except.ok ("flag = " ++ (if b then "True" else "False")) := by
  cases b <;> exact ⟨by decide, by decide, by decide, by decide⟩

/-- `invert` is an involution on the node structure. -/
theorem Q.invert_invert (q : Q) : q.invert.invert = q := by
  cases q <;> simp [Q.invert]

/-- Claim C5: double negation is identity for rendering — for every
expression node, `negate(negate(q))` renders to exactly the same filter
string as `q`. -/
theorem double_negation_renders_identically (q : Q) :
    q.invert.invert.to_query_string = q.to_query_string := by
  rw [Q.invert_invert]

/-- Claim C10: negating a combinator node changes nothing observable in
the flat string rendering — the combinator branch of `to_query_string`
never consults the node's own negation flag, and `__invert__` does not
touch the flags stored in the children. -/
theorem invert_combinator_renders_identically (op : String) (l r : Q) (n : Bool) :
    (Q.comb op l r n).invert.to_query_string = (Q.comb op l r n).to_query_string := by
  rfl

/-- Claim C1, code bug: building `IndexQuery("test_index", "John")` with
the filter `Q(age__gt=19)` emits, under the `filter` key, the raw `Q`
object and not its rendered string `"age > 19"` (which
`test.py::test_multi_search` line 138 expects): the comparison
`attr_type != Q` in `get_dict` compares the annotation `Optional[Q]`
against the class `Q` and is therefore always true, so the rendering
branch is dead. -/
theorem get_dict_emits_unrendered_filter :
    ((IndexQuery.make "test_index" "John").setattrRaw "filter"
        (AttrValue.q ageGtQ)).get_dict =
      [("indexUid", DictValue.raw (AttrValue.s "test_index")),
       ("q", DictValue.raw (AttrValue.s "John")),
       ("filter", DictValue.raw (AttrValue.q ageGtQ))] ∧
    ageGtQ.to_query_string = Except.ok "age > 19" ∧
    DictValue.raw (AttrValue.q ageGtQ) ≠
      DictValue.raw (AttrValue.s "age > 19") := by
  refine ⟨by decide, by decide, by decide⟩

/-- Claim C2, code bug: on the builder state of
`test.py::test_multi_search`, `get_dict` always emits `indexUid` and `q`
and omits every unset option, but stores each set option under its
snake_case Python attribute name (`return_dict[attr] = ...`), not under
the camelCase protocol key the claim (and the repository's own test,
lines 133–146) require: `attributes_to_retrieve` instead of
`attributesToRetrieve`, `show_matches_position` instead of
`showMatchesPosition`, and so on. -/
theorem get_dict_emits_snake_case_keys :
    iqTest.get_dict.map Prod.fst =
      ["indexUid", "q", "filter", "limit", "facets", "attributes_to_retrieve",
       "attributes_to_highlight", "show_matches_position", "sort"] ∧
    (iqTest.get_dict.map Prod.fst).contains "attributesToRetrieve" = false ∧
    (iqTest.get_dict.map Prod.fst).contains "showMatchesPosition" = false := by
  refine ⟨by decide, by decide, by decide⟩

/-- Claim C8, counterexample: a leaf can contain a membership condition
with a non-sequence value and still not fail with the invalid-value-type
error — the condition loop surfaces the first violation, so
`Q(a__foo=1, b__in=2)` fails with the invalid-operator error for `foo`
instead. -/
theorem membership_error_preempted_by_invalid_operator :
    condIsMembership ("b__in", QVal.int 2) = true ∧
    isListVal (QVal.int 2) = false ∧
    (Q.make [("a__foo", QVal.int 1), ("b__in", QVal.int 2)]).to_query_string =
      Except.error (QError.invalidOperation "foo") ∧
    Except.error (QError.invalidOperation "foo") ≠
      (Except.error QError.invalidValueType : Except QError String) := by
  refine ⟨by decide, by decide, by decide, by decide⟩

/-- A condition whose operator suffix is recognized and whose value is a
list whenever the operator is a membership one renders without error. -/
theorem renderCondition_ok (neg : Bool) (key : String) (value : QVal)
    (h1 : condOpValid (key, value) = true)
    (h2 : condIsMembership (key, value) = true → isListVal value = true) :
    ∃ s, renderCondition neg key value = Except.ok s := by
  simp only [condOpValid] at h1
  simp only [condIsMembership] at h2
  unfold renderCondition
  rw [if_pos h1]
  by_cases hm : ((parseKey key).2 = "in" || (parseKey key).2 = "nin") = true
  · have hl := h2 hm
    cases value with
    | list l =>
      simp only [formatValue, hm, if_pos]
      split <;> split <;> exact ⟨_, rfl⟩
    | str v => simp [isListVal] at hl
    | int v => simp [isListVal] at hl
    | bool v => simp [isListVal] at hl
  · simp only [formatValue, hm, if_neg, Bool.false_eq_true, if_false]
    split <;> split <;> exact ⟨_, rfl⟩

/-- A membership condition with a recognized operator suffix and a
non-list value renders to the invalid-value-type error. -/
theorem renderCondition_nonlist (neg : Bool) (key : String) (value : QVal)
    (h1 : condOpValid (key, value) = true)
    (hm : condIsMembership (key, value) = true)
    (hl : isListVal value = false) :
    renderCondition neg key value = Except.error QError.invalidValueType := by
  simp only [condOpValid] at h1
  simp only [condIsMembership] at hm
  unfold renderCondition
  rw [if_pos h1]
  cases value with
  | list l => simp [isListVal] at hl
  | str v => simp [formatValue, hm]
  | int v => simp [formatValue, hm]
  | bool v => simp [formatValue, hm]

/-- The condition loop succeeds when every condition has a recognized
operator suffix and every membership condition carries a list. -/
theorem renderConditions_ok (neg : Bool) (conds : List (String × QVal))
    (h : ∀ c ∈ conds, condOpValid c = true ∧
      (condIsMembership c = true → isListVal c.2 = true)) :
    ∃ cs, renderConditions neg conds = Except.ok cs := by
  induction conds with
  | nil => exact ⟨[], rfl⟩
  | cons c rest ih =>
    obtain ⟨h1, h2⟩ := h c (List.mem_cons_self c rest)
    obtain ⟨s, hs⟩ := renderCondition_ok neg c.1 c.2 h1 h2
    obtain ⟨cs, hcs⟩ := ih (fun d hd => h d (List.mem_cons_of_mem c hd))
    refine ⟨s :: cs, ?_⟩
    cases c with
    | mk k v => simp [renderConditions, hs, hcs]

/-- The condition loop raises the invalid-value-type error when every
operator suffix is recognized and some membership condition carries a
non-list value. -/
theorem renderConditions_nonlist (neg : Bool) (conds : List (String × QVal))
    (hops : ∀ c ∈ conds, condOpValid c = true)
    (hbad : ∃ c ∈ conds, condIsMembership c = true ∧ isListVal c.2 = false) :
    renderConditions neg conds = Except.error QError.invalidValueType := by
  induction conds with
  | nil => simp at hbad
  | cons c rest ih =>
    by_cases hc : condIsMembership c = true ∧ isListVal c.2 = false
    · have := renderCondition_nonlist neg c.1 c.2
        (hops c (List.mem_cons_self c rest)) hc.1 hc.2
      cases c with
      | mk k v => simp [renderConditions, this]
    · have hok : ∃ s, renderCondition neg c.1 c.2 = Except.ok s := by
        refine renderCondition_ok neg c.1 c.2 (hops c (List.mem_cons_self c rest)) ?_
        intro hm
        by_contra hnl
        exact hc ⟨hm, by simpa using hnl⟩
      obtain ⟨s, hs⟩ := hok
      have hrest : ∃ c ∈ rest, condIsMembership c = true ∧ isListVal c.2 = false := by
        obtain ⟨d, hd, hdprop⟩ := hbad
        rcases List.mem_cons.mp hd with rfl | hd2
        · exact absurd hdprop hc
        · exact ⟨d, hd2, hdprop⟩
      have := ih (fun d hd => hops d (List.mem_cons_of_mem c hd)) hrest
      cases c with
      | mk k v => simp [renderConditions, hs, this]

/-- Claim C8, amended: over leaves whose condition keys all carry
recognized operator suffixes, rendering fails with the invalid-value-type
error exactly as the claim says — it fails with that error whenever some
membership (`IN`/`NOT IN`) condition carries a non-list value, and it
succeeds (in particular, never raises that error) whenever every
membership condition carries a list.  (The restriction to recognized
suffixes is forced by the counterexample: an unrecognized suffix earlier
in the leaf surfaces its invalid-operator error first.) -/
theorem membership_list_assertion_spec (conds : List (String × QVal)) (neg : Bool)
    (hops : ∀ c ∈ conds, condOpValid c = true) :
    ((∃ c ∈ conds, condIsMembership c = true ∧ isListVal c.2 = false) →
      (Q.leaf conds neg).to_query_string = Except.error QError.invalidValueType) ∧
    ((∀ c ∈ conds, condIsMembership c = true → isListVal c.2 = true) →
      ∃ s, (Q.leaf conds neg).to_query_string = Except.ok s) := by
  constructor
  · intro hbad
    have := renderConditions_nonlist neg conds hops hbad
    simp [Q.to_query_string, renderLeafConditions, this]
  · intro hgood
    obtain ⟨cs, hcs⟩ := renderConditions_ok neg conds
      (fun c hc => ⟨hops c hc, hgood c hc⟩)
    exact ⟨String.intercalate " AND " cs,
      by simp [Q.to_query_string, renderLeafConditions, hcs]⟩

/-- Witness for the amended claim C8 at concrete inputs: the membership
leaf `Q(category__in=1)` raises the invalid-value-type error, and
`Q(category__in=["a"])` renders successfully. -/
theorem membership_list_assertion_witness :
    (Q.leaf [("category__in", QVal.int 1)] false).to_query_string =
      Except.error QError.invalidValueType ∧
    ∃ s, (Q.leaf [("category__in", QVal.list [Scalar.s "a"])] false).to_query_string =
      Except.ok s := by
  constructor
  · exact (membership_list_assertion_spec [("category__in", QVal.int 1)] false
      (by decide)).1 (by decide)
  · exact (membership_list_assertion_spec [("category__in", QVal.list [Scalar.s "a"])]
      false (by decide)).2 (by decide)

/-- Level-generalized behavior of `to_query_list`: a call at level `lvl`
on a tree whose leaves all render succeeds when `lvl` plus the tree's
combinator depth stays within the hard bound `2`, and raises the nesting
exception otherwise. -/
theorem to_query_list_level (q : Q) : ∀ lvl : Nat, q.leavesOk = true →
    (lvl + q.combDepth ≤ 2 → ∃ out, q.to_query_list lvl = Except.ok out) ∧
    (2 < lvl + q.combDepth → q.to_query_list lvl = Except.error QError.depthExceeded) := by
  induction q with
  | leaf conds neg =>
    intro lvl h
    constructor
    · intro hle
      have hguard : ¬ lvl > 2 := by simp [Q.combDepth] at hle; omega
      cases hr : renderLeafConditions neg conds with
      | ok s =>
        exact ⟨QueryList.str s, by simp [Q.to_query_list, hguard, hr]⟩
      | error e => simp [Q.leavesOk, exceptIsOk, hr] at h
    · intro hgt
      have hguard : lvl > 2 := by simp [Q.combDepth] at hgt; omega
      simp [Q.to_query_list, hguard]
  | comb op l r neg ihl ihr =>
    intro lvl h
    obtain ⟨hl, hr⟩ : l.leavesOk = true ∧ r.leavesOk = true := by
      simpa [Q.leavesOk, Bool.and_eq_true] using h
    constructor
    · intro hle
      simp only [Q.combDepth] at hle
      have hguard : ¬ lvl > 2 := by omega
      have hmaxl := Nat.le_max_left l.combDepth r.combDepth
      have hmaxr := Nat.le_max_right l.combDepth r.combDepth
      obtain ⟨ol, hol⟩ := (ihl (lvl + 1) hl).1 (by omega)
      obtain ⟨orr, horr⟩ := (ihr (lvl + 1) hr).1 (by omega)
      exact ⟨QueryList.pair ol orr, by simp [Q.to_query_list, hguard, hol, horr]⟩
    · intro hgt
      simp only [Q.combDepth] at hgt
      by_cases hguard : lvl > 2
      · simp [Q.to_query_list, hguard]
      · by_cases hlbig : 2 < (lvl + 1) + l.combDepth
        · have hle := (ihl (lvl + 1) hl).2 hlbig
          simp [Q.to_query_list, hguard, hle]
        · have hrbig : 2 < (lvl + 1) + r.combDepth := by
            rcases max_choice l.combDepth r.combDepth with hm | hm <;> omega
          obtain ⟨ol, hol⟩ := (ihl (lvl + 1) hl).1 (by omega)
          have hre := (ihr (lvl + 1) hr).2 hrbig
          simp [Q.to_query_list, hguard, hol, hre]

/-- Claim C6: on a tree whose leaves all render, `to_query_list` (called
with its default `lvl = 0`) fails with the nesting-depth exception
exactly when the number of nested combinator levels exceeds the hard
bound `2`, and for a depth of at most `2` it returns the nested
two-element-list rendering without error. -/
theorem to_query_list_depth_spec (q : Q) (h : q.leavesOk = true) :
    (q.to_query_list 0 = Except.error QError.depthExceeded ↔ 2 < q.combDepth) ∧
    (q.combDepth ≤ 2 → ∃ out, q.to_query_list 0 = Except.ok out) := by
  have hspec := to_query_list_level q 0 h
  constructor
  · constructor
    · intro he
      by_contra hc
      push_neg at hc
      obtain ⟨out, hout⟩ := hspec.1 (by omega)
      rw [he] at hout
      exact Except.noConfusion hout
    · intro hgt
      exact hspec.2 (by omega)
  · intro hle
    exact hspec.1 (by omega)

/-- Witness for claim C6 at concrete trees: the combinator-depth-3 tree
`((A & B) & C) & D` raises the nesting exception, and the
combinator-depth-2 tree `(A & B) & C` renders to its nested list. -/
theorem to_query_list_depth_witness :
    ((((Q.make [("a", QVal.int 1)]).and_ (Q.make [("b", QVal.int 2)])).and_
        (Q.make [("c", QVal.int 3)])).and_
        (Q.make [("d", QVal.int 4)])).to_query_list 0 =
      Except.error QError.depthExceeded ∧
    ∃ out, (((Q.make [("a", QVal.int 1)]).and_ (Q.make [("b", QVal.int 2)])).and_
        (Q.make [("c", QVal.int 3)])).to_query_list 0 = Except.ok out := by
  constructor
  · exact (to_query_list_depth_spec
      ((((Q.make [("a", QVal.int 1)]).and_ (Q.make [("b", QVal.int 2)])).and_
        (Q.make [("c", QVal.int 3)])).and_
        (Q.make [("d", QVal.int 4)])) (by decide)).1.mpr (by decide)
  · exact (to_query_list_depth_spec
      (((Q.make [("a", QVal.int 1)]).and_ (Q.make [("b", QVal.int 2)])).and_
        (Q.make [("c", QVal.int 3)])) (by decide)).2 (by decide)

/-- `setattr` followed by `getattr` on the same present slot reads the
stored value. -/
theorem lookup_setattr_self (l : List (String × Option AttrValue)) (attr : String)
    (v : AttrValue) (h : (l.map Prod.fst).contains attr = true) :
    List.lookup attr (updateSlot attr v l) = some (some v) := by
  induction l with
  | nil => simp at h
  | cons p rest ih =>
    obtain ⟨k, w⟩ := p
    by_cases hp : k = attr
    · subst hp
      simp [updateSlot, List.lookup]
    · have hrest : (rest.map Prod.fst).contains attr = true := by
        simp [List.contains_cons] at h
        rcases h with h | h
        · exact absurd h.symm hp
        · simpa using h
      have hne : (attr == k) = false := by
        simp only [beq_eq_false_iff_ne, ne_eq]
        exact fun he => hp he.symm
      simp [updateSlot, hp, List.lookup, hne, ih hrest]

/-- `setattr` on one slot leaves every other slot unchanged. -/
theorem lookup_setattr_other (l : List (String × Option AttrValue)) (attr a : String)
    (v : AttrValue) (hne : a ≠ attr) :
    List.lookup a (updateSlot attr v l) = List.lookup a l := by
  induction l with
  | nil => rfl
  | cons p rest ih =>
    obtain ⟨k, w⟩ := p
    by_cases hp : k = attr
    · subst hp
      have hnep : (a == k) = false := by
        simp only [beq_eq_false_iff_ne, ne_eq]
        exact hne
      simp [updateSlot, List.lookup, hnep, ih]
    · cases hcmp : (a == k) with
      | true => simp [updateSlot, hp, List.lookup, hcmp]
      | false => simp [updateSlot, hp, List.lookup, hcmp, ih]

/-- Claim C9: on every builder state whose option slots are the
recognized set (as `__init__` creates them), `set_attr` with an
unrecognized name raises the `AttributeError` — before any mutation, so
the builder's identifier, query string and every slot stay exactly as
they were — while with a recognized name it stores the value under that
slot, changes nothing else, and returns the builder. -/
theorem set_attr_spec (iq : IndexQuery) (hwf : iq.attrs.map Prod.fst = attrNames)
    (attr : String) (v : AttrValue) :
    (attrNames.contains attr = false →
      iq.set_attr attr v = Except.error ("Attribute " ++ attr ++ " does not exist.")) ∧
    (attrNames.contains attr = true →
      ∃ iq2, iq.set_attr attr v = Except.ok iq2 ∧
        iq2.index_uid = iq.index_uid ∧
        iq2.search_query = iq.search_query ∧
        iq2.getattr attr = some v ∧
        ∀ a, a ≠ attr → iq2.getattr a = iq.getattr a) := by
  constructor
  · intro h
    unfold IndexQuery.set_attr
    rw [h]
    simp
  · intro h
    refine ⟨iq.setattrRaw attr v, ?_, rfl, rfl, ?_, ?_⟩
    · unfold IndexQuery.set_attr
      rw [h]
      simp
    · have hc : (iq.attrs.map Prod.fst).contains attr = true := by rw [hwf]; exact h
      simp [IndexQuery.getattr, IndexQuery.setattrRaw,
        lookup_setattr_self iq.attrs attr v hc]
    · intro a hne
      simp [IndexQuery.getattr, IndexQuery.setattrRaw,
        lookup_setattr_other iq.attrs attr a v hne]

/-- Witness for claim C9 at concrete inputs: on a fresh
`IndexQuery("test_index", "John")`, setting the unrecognized name `bogus`
raises the `AttributeError`, and setting `limit` stores the value. -/
theorem set_attr_witness :
    (IndexQuery.make "test_index" "John").set_attr "bogus" (AttrValue.i 1) =
      Except.error "Attribute bogus does not exist." ∧
    ∃ iq2, (IndexQuery.make "test_index" "John").set_attr "limit" (AttrValue.i 2) =
      Except.ok iq2 ∧ iq2.getattr "limit" = some (AttrValue.i 2) := by
  constructor
  · exact (set_attr_spec (IndexQuery.make "test_index" "John") (by decide)
      "bogus" (AttrValue.i 1)).1 (by decide)
  · obtain ⟨iq2, h1, _, _, h4, _⟩ :=
      (set_attr_spec (IndexQuery.make "test_index" "John") (by decide)
        "limit" (AttrValue.i 2)).2 (by decide)
    exact ⟨iq2, h1, h4⟩
